import Mathlib

/-!
Verification of the job-scheduler core of this repository and of the
`cmdhandler` decorator in `telegram/utils/decorators.py`.

The scheduler implementation itself (`telegram/ext/jobqueue.py`) is not part
of the source tree; only its test suite (`tests/test_jobqueue.py`) is.  The
scheduler is therefore modelled from the specification (sections 3 and 4 of
`spec.md`), with the behaviour pinned by the test suite taken as authoritative
where the two meet.  Time is modelled in integer seconds since the Unix epoch
(UTC); a time-of-day is a number of seconds since local midnight.
-/

namespace PTB

/-! ## Time policy resolver -/

/-- Number of seconds in a day. -/
def daySecs : Int := 86400

/-- Modelled from the spec: the calendar day number (days since the epoch) of
an absolute timestamp, as used by the Time Policy Resolver of
`telegram/ext/jobqueue.py`, which is not in the source tree. -/
def dayNumber (t : Int) : Int := t / daySecs

/-- Modelled from the spec: the weekday of an absolute timestamp, with the
convention 0 = Monday .. 6 = Sunday.  Epoch day 0 (1970-01-01) was a
Thursday, i.e. weekday 3. -/
def weekdayOf (t : Int) : Int := (dayNumber t + 3) % 7

/-- Modelled from the spec: the UTC instant whose wall-clock time in the fixed
UTC-offset timezone `offset` equals the time-of-day `tod` on the local day
containing `now`.  (`offset = 0` models a naive time-of-day.) -/
def todaySlot (now tod offset : Int) : Int :=
  daySecs * dayNumber (now + offset) + tod - offset

/-- Modelled from the spec: the resolver for a time-of-day-only specification
(`telegram/ext/jobqueue.py` is not in the source tree): the next occurrence of
the wall-clock time `tod` (in the fixed UTC-offset timezone `offset`) at or
after `now`; if the slot of the current local day has already passed, roll
forward exactly 24 hours. -/
def nextTodOccurrence (now tod offset : Int) : Int :=
  if todaySlot now tod offset < now then todaySlot now tod offset + daySecs
  else todaySlot now tod offset

/-- Modelled from the spec: starting from candidate instant `t`, advance in
whole days (at most `fuel` times) until the weekday of the date in the
offset-local calendar is an eligible day. -/
def dailySearch (offset : Int) (days : List Int) : Nat → Int → Int
  | 0, t => t
  | n + 1, t =>
      if weekdayOf (t + offset) ∈ days then t
      else dailySearch offset days n (t + daySecs)

/-- Modelled from the spec: the resolver for a daily job
(`telegram/ext/jobqueue.py` is not in the source tree): the next timestamp at
or after `now` matching the time-of-day `tod` and whose date's weekday, taken
in the offset-local calendar, is in the eligible set `days`. -/
def dailyNext (now tod offset : Int) (days : List Int) : Int :=
  dailySearch offset days 7 (nextTodOccurrence now tod offset)

/-- Modelled from the spec: rescheduling of a daily job after it fired at
`last`: exactly 24 hours later, searching forward to the next eligible
weekday when not every day is eligible. -/
def dailyReschedule (last offset : Int) (days : List Int) : Int :=
  dailySearch offset days 7 (last + daySecs)

/-! ## Job entity and mutation guards -/

/-- A valid value held by the `interval` attribute of a `Job`: a plain number
of seconds or a `datetime.timedelta` (represented by its total seconds). -/
inductive IntervalValue where
  | num : Int → IntervalValue
  | timedelta : Int → IntervalValue
deriving DecidableEq, Repr

/-- A value assigned to the `interval` attribute of a `Job`: `None`, a
supported duration value, or a value of an unsupported type (such as the
string used in `test_warnings`). -/
inductive IntervalInput where
  | noneV : IntervalInput
  | num : Int → IntervalInput
  | timedelta : Int → IntervalInput
  | badType : String → IntervalInput
deriving DecidableEq, Repr

/-- Modelled from the spec: the mutable validation-relevant state of a `Job`
entity of `telegram/ext/jobqueue.py`, which is not in the source tree.  The
source attribute `repeat` is spelled `repeats` here because `repeat` is a
reserved word in Lean. -/
structure Job where
  repeats : Bool
  interval : Option IntervalValue
  enabled : Bool
  removed : Bool
deriving DecidableEq, Repr

/-- Modelled from the spec: the read-only derived attribute
`Job.interval_seconds`. -/
def Job.interval_seconds (j : Job) : Option Int :=
  j.interval.map fun v =>
    match v with
    | .num n => n
    | .timedelta s => s

/-- Modelled from the spec: the validating setter of `Job.interval`
(`telegram/ext/jobqueue.py` is not in the source tree).  The validation rules
follow spec sections 4.1 and 7 as pinned by
`tests/test_jobqueue.py::test_warnings`: assigning `None` fails exactly when
`repeat` is true, assigning a value of an unsupported type fails, and
assigning a supported duration value succeeds regardless of `repeat`. -/
def Job.setInterval (j : Job) (v : IntervalInput) : Except String Job :=
  match v with
  | .noneV =>
      if j.repeats then Except.error "interval can not be None when repeat is True"
      else Except.ok { j with interval := none }
  | .num n => Except.ok { j with interval := some (.num n) }
  | .timedelta s => Except.ok { j with interval := some (.timedelta s) }
  | .badType _ => Except.error "interval must be of type Number or timedelta"

/-- Modelled from the spec: the validating setter of `Job.repeat`: `repeat`
can not be set to true while `interval` is `None`
(`tests/test_jobqueue.py::test_warnings`). -/
def Job.setRepeat (j : Job) (b : Bool) : Except String Job :=
  if b && j.interval.isNone then
    Except.error "repeat can not be set to True when interval is None"
  else Except.ok { j with repeats := b }

/-! ## Scheduler queue and loop -/

/-- Modelled from the spec: a timing policy of a scheduled job (exactly one of
one-shot, repeating, daily). -/
inductive Policy where
  | oneShot : Policy
  | repeating : Int → Policy
  | daily : Int → Int → List Int → Policy
deriving DecidableEq, Repr

/-- Modelled from the spec: a job as held by the Scheduler Queue of
`telegram/ext/jobqueue.py`, which is not in the source tree.  The callback is
abstracted by its observable effects in the test suite: whether it raises an
exception (`raises`) and whether it calls `schedule_removal()` on its own job
(`removesSelf`). -/
structure QueuedJob where
  id : Nat
  policy : Policy
  raises : Bool
  removesSelf : Bool
  enabled : Bool
  removed : Bool
deriving DecidableEq, Repr

/-- An entry of the Scheduler Queue: a job together with its `next_t`. -/
structure Entry where
  next_t : Int
  job : QueuedJob
deriving DecidableEq, Repr

/-- Modelled from the spec: insertion into the priority queue, keyed by
`next_t` ascending with FIFO tie-break on equal timestamps (the new entry goes
after every existing entry whose `next_t` is less than or equal to its
own). -/
def insertEntry (e : Entry) : List Entry → List Entry
  | [] => [e]
  | f :: rest =>
      if f.next_t ≤ e.next_t then f :: insertEntry e rest
      else e :: f :: rest

/-- The full state of the modelled scheduler: the queue (sorted,
earliest-first), the current clock, the chronological list of callback
invocations `(job id, fire time)`, the errors reported to the external error
channel, and the next fresh job id. -/
structure SchedState where
  queue : List Entry
  now : Int
  trace : List (Nat × Int)
  errors : List (Nat × Int)
  nextId : Nat
deriving DecidableEq, Repr

/-- Modelled from the spec: rescheduling after the deadline `t` fired (or was
skipped): one-shot jobs are dropped, repeating jobs fire again at
`previous_next_t + interval`, daily jobs at the next eligible day. -/
def reschedulePolicy (t : Int) (p : Policy) : Option Int :=
  match p with
  | .oneShot => none
  | .repeating i => some (t + i)
  | .daily _ offset days => some (dailyReschedule t offset days)

/-- Modelled from the spec: dispatch of one popped queue entry, due at `t`
(spec section 4.3, steps 3 to 5): a removed job is dropped; a disabled job is
skipped but rescheduled as if it had run; otherwise the callback is invoked
(error-isolated: a raising callback is recorded on the error channel and
otherwise swallowed), then the job is dropped if it removed itself during the
callback and is otherwise rescheduled per policy. -/
def dispatch (st : SchedState) (t : Int) (j : QueuedJob) : SchedState :=
  if j.removed then st
  else if !j.enabled then
    match reschedulePolicy t j.policy with
    | none => st
    | some t2 => { st with queue := insertEntry ⟨t2, j⟩ st.queue }
  else
    let st1 :=
      if j.raises then
        { st with trace := st.trace ++ [(j.id, t)], errors := st.errors ++ [(j.id, t)] }
      else { st with trace := st.trace ++ [(j.id, t)] }
    let j2 := if j.raises then j else { j with removed := j.removed || j.removesSelf }
    if j2.removed then st1
    else
      match reschedulePolicy t j2.policy with
      | none => st1
      | some t2 => { st1 with queue := insertEntry ⟨t2, j2⟩ st1.queue }

/-- Modelled from the spec: the Scheduler Loop run until the clock reaches
`target`: while the earliest queued entry is due (its `next_t` is at most
`target`), pop it and dispatch it; `fuel` bounds the number of pops. -/
def runUntil : Nat → SchedState → Int → SchedState
  | 0, st, _ => st
  | fuel + 1, st, target =>
      match st.queue with
      | [] => { st with now := max st.now target }
      | e :: rest =>
          if e.next_t ≤ target then
            runUntil fuel
              (dispatch { st with queue := rest, now := max st.now e.next_t } e.next_t e.job)
              target
          else { st with now := max st.now target }

/-- The scheduler state right after `JobQueue()` is created and started. -/
def initState : SchedState := ⟨[], 0, [], [], 0⟩

/-- Modelled from the spec: `run_once(callback, when=delay)` — schedule a
one-shot job due `delay` after the current clock. -/
def run_once (st : SchedState) (delay : Int) (raises removesSelf : Bool) : SchedState :=
  { st with
      queue := insertEntry
        ⟨st.now + delay, ⟨st.nextId, .oneShot, raises, removesSelf, true, false⟩⟩ st.queue,
      nextId := st.nextId + 1 }

/-- Modelled from the spec: `run_repeating(callback, interval)` — schedule a
repeating job whose first fire is `interval` after the current clock (the
default `first = interval`). -/
def run_repeating (st : SchedState) (i : Int) (raises removesSelf : Bool) : SchedState :=
  { st with
      queue := insertEntry
        ⟨st.now + i, ⟨st.nextId, .repeating i, raises, removesSelf, true, false⟩⟩ st.queue,
      nextId := st.nextId + 1 }

/-- Modelled from the spec: assignment to the `enabled` attribute of the job
with id `id` (safe at any time; the loop re-reads the flag at dispatch
time). -/
def setEnabled (st : SchedState) (id : Nat) (b : Bool) : SchedState :=
  { st with
      queue := st.queue.map fun e =>
        if e.job.id = id then { e with job := { e.job with enabled := b } } else e }

/-- The scenario of `tests/test_jobqueue.py::test_disabled`, phase 1
(generalised timings): schedule a one-shot job (id 0) due at `D1` and a
repeating job (id 1) with interval `I`, disable both, and run the loop until
`t0`. -/
def disabledScenarioPhase1 (I D1 t0 : Int) : SchedState :=
  runUntil 3
    (setEnabled
      (setEnabled (run_repeating (run_once initState D1 false false) I false false) 0 false)
      1 false)
    t0

/-- Phase 2 of the `test_disabled` scenario: re-enable the one-shot job before
its deadline and run the loop until `T`. -/
def disabledScenarioPhase2 (I D1 t0 T : Int) : SchedState :=
  runUntil 3 (setEnabled (disabledScenarioPhase1 I D1 t0) 0 true) T

/-- Phase 3, beyond the source test: re-enable the repeating job and run the
loop until `T2`. -/
def disabledScenarioPhase3 (I D1 t0 T T2 : Int) : SchedState :=
  runUntil 3 (setEnabled (disabledScenarioPhase2 I D1 t0 T) 1 true) T2

/-! ## The `cmdhandler` decorator of `telegram/utils/decorators.py`

Python values reaching the callbacks are abstracted by an arbitrary type `V`;
a Python callable is its `__name__` together with a function taking the two
leading positional arguments and the remaining `*args` (the `**kwargs` of the
wrapper are forwarded unchanged together with the rest and carry no further
structure the claims need). -/

/-- The calling convention of the wrapper registered by `cmdhandler`:
`(update, context, *args, **kwargs)` or `(bot, update, *args, **kwargs)`. -/
inductive Convention where
  | context : Convention
  | bot : Convention
deriving DecidableEq, Repr

/-- A Python callable: its `__name__` and its behaviour on two leading
positional arguments plus the remaining arguments. -/
structure PyCallback (V : Type) where
  name : String
  fn : V → V → List V → V

/-- The inner wrapper `decorated` built by `cmdhandler`: its calling
convention together with its forwarding behaviour. -/
structure Decorated (V : Type) where
  convention : Convention
  forward : V → V → List V → V

/-- A `telegram.ext.CommandHandler` as registered by `cmdhandler`: the command
name, the wrapped callback and the extra `handler_kwargs` (kept opaque as an
association list). -/
structure CommandHandler (V : Type) where
  command : String
  callback : Decorated V
  kwargs : List (String × String)

/-- A `telegram.ext.Dispatcher`: its `use_context` flag and the handlers added
so far, in registration order. -/
structure Dispatcher (V : Type) where
  use_context : Bool
  handlers : List (CommandHandler V)

/-- `Dispatcher.add_handler`: appends a handler. -/
def add_handler {V : Type} (d : Dispatcher V) (h : CommandHandler V) : Dispatcher V :=
  { d with handlers := d.handlers ++ [h] }

/-- Python truthiness-based `command or callback.__name__` of
`telegram/utils/decorators.py` line 51: the provided command when it is truthy
(not `None` and not empty), otherwise the decorated function's name. -/
def commandOrName (command : Option String) (name : String) : String :=
  match command with
  | none => name
  | some s => if s = "" then name else s

/-- The decorator factory `cmdhandler(dispatcher, command, **handler_kwargs)`
of `telegram/utils/decorators.py`, applied to a callback: builds the wrapper
`decorated` according to `dispatcher.use_context`, registers a
`CommandHandler` for `command or callback.__name__` on the dispatcher, and
returns the original callback.  The mutation of the dispatcher is modelled by
returning the updated dispatcher alongside the decorator's return value. -/
def cmdhandler {V : Type} (d : Dispatcher V) (command : Option String)
    (kwargs : List (String × String)) (callback : PyCallback V) :
    Dispatcher V × PyCallback V :=
  let decorated : Decorated V :=
    if d.use_context then
      ⟨.context, fun update context rest => callback.fn update context rest⟩
    else
      ⟨.bot, fun bot update rest => callback.fn bot update rest⟩
  let handler : CommandHandler V := ⟨commandOrName command callback.name, decorated, kwargs⟩
  (add_handler d handler, callback)

/-! ## Helper lemmas about the resolver -/

theorem todaySlot_bounds (now tod offset : Int) (h0 : 0 ≤ tod) (h1 : tod < daySecs) :
    now - daySecs < todaySlot now tod offset ∧ todaySlot now tod offset < now + daySecs := by
  simp only [todaySlot, dayNumber, daySecs] at h1 ⊢
  constructor <;> omega

theorem nextTodOccurrence_bounds (now tod offset : Int) (h0 : 0 ≤ tod) (h1 : tod < daySecs) :
    now ≤ nextTodOccurrence now tod offset ∧ nextTodOccurrence now tod offset < now + daySecs := by
  have h := todaySlot_bounds now tod offset h0 h1
  simp only [nextTodOccurrence, daySecs] at h h1 ⊢
  split <;> omega

theorem nextTodOccurrence_tod (now tod offset : Int) (h0 : 0 ≤ tod) (h1 : tod < daySecs) :
    (nextTodOccurrence now tod offset + offset) % daySecs = tod := by
  simp only [nextTodOccurrence, todaySlot, dayNumber, daySecs] at h1 ⊢
  split <;> omega

theorem nextTodOccurrence_least (now tod offset u : Int) (h0 : 0 ≤ tod) (h1 : tod < daySecs)
    (hu1 : now ≤ u) (hu2 : u < nextTodOccurrence now tod offset) :
    (u + offset) % daySecs ≠ tod := by
  simp only [nextTodOccurrence, todaySlot, dayNumber, daySecs] at h1 hu2 ⊢
  split at hu2 <;> omega

theorem dailySearch_hit (offset : Int) (days : List Int) (n : Nat) (t : Int)
    (h : weekdayOf (t + offset) ∈ days) : dailySearch offset days (n + 1) t = t := by
  unfold dailySearch
  rw [if_pos h]

/-! ## Claims about the resolver -/

/-- Claim C2: for `run_once` given only a time-of-day (no date) whose
wall-clock slot has already passed today relative to `now` (the time-of-day is
that of the instant `now + delta` for some negative `delta` lying on today's
date), the computed `next_t` equals the naive same-clock-time occurrence today
plus exactly 86400 seconds. -/
theorem run_once_tod_passed_rolls_forward_one_day (now delta : Int)
    (hneg : delta < 0)
    (hsameday : dayNumber (now + delta) = dayNumber now) :
    nextTodOccurrence now (now + delta - daySecs * dayNumber (now + delta)) 0 =
      now + delta + daySecs := by
  have hslot :
      todaySlot now (now + delta - daySecs * dayNumber (now + delta)) 0 = now + delta := by
    unfold todaySlot
    rw [add_zero, hsameday]
    ring
  unfold nextTodOccurrence
  rw [hslot, if_pos (by omega)]

/-- Witness for C2 at `now = 1000`, `delta = -2`. -/
theorem run_once_tod_passed_rolls_forward_one_day_w :
    (-2 : Int) < 0 ∧ dayNumber (1000 + -2) = dayNumber 1000 ∧
      nextTodOccurrence 1000 (1000 + -2 - daySecs * dayNumber (1000 + -2)) 0 =
        1000 + -2 + daySecs :=
  ⟨by decide, by decide,
    run_once_tod_passed_rolls_forward_one_day 1000 (-2) (by decide) (by decide)⟩

/-- Claim C3: for `run_daily` with a time-of-day carrying a fixed UTC-offset
timezone, the weekday used for the days-eligibility check is the weekday of
the date in that offset's local time, not the scheduler's UTC date: a daily
job whose eligible weekdays match the target instant's offset-local weekday
(even when its UTC weekday is not eligible) still fires at the target instant,
which is the shifted wall-clock occurrence lying within one day at or after
`now`. -/
theorem run_daily_with_timezone_local_weekday (now tod offset : Int) (days : List Int)
    (h0 : 0 ≤ tod) (h1 : tod < daySecs)
    (hlocal : weekdayOf (nextTodOccurrence now tod offset + offset) ∈ days)
    (hutc : weekdayOf (nextTodOccurrence now tod offset) ∉ days) :
    dailyNext now tod offset days = nextTodOccurrence now tod offset ∧
    now ≤ dailyNext now tod offset days ∧
    dailyNext now tod offset days < now + daySecs := by
  have hb := nextTodOccurrence_bounds now tod offset h0 h1
  have he : dailyNext now tod offset days = nextTodOccurrence now tod offset := by
    unfold dailyNext
    exact dailySearch_hit offset days 6 _ hlocal
  exact ⟨he, he ▸ hb.1, he ▸ hb.2⟩

/-- Witness for C3: `now = 100000` (a Friday, UTC), offset `+23:59` hours
(86340 seconds), time-of-day 13541; the target instant is `now + 1`, whose
offset-local date is a Saturday while its UTC date is a Friday, and the single
eligible weekday 5 (Saturday) matches only in the offset-local calendar. -/
theorem run_daily_with_timezone_local_weekday_w :
    (0 : Int) ≤ 13541 ∧ (13541 : Int) < daySecs ∧
      weekdayOf (nextTodOccurrence 100000 13541 86340 + 86340) ∈ [(5 : Int)] ∧
      weekdayOf (nextTodOccurrence 100000 13541 86340) ∉ [(5 : Int)] ∧
      dailyNext 100000 13541 86340 [5] = nextTodOccurrence 100000 13541 86340 ∧
      (100000 : Int) ≤ dailyNext 100000 13541 86340 [5] ∧
      dailyNext 100000 13541 86340 [5] < 100000 + daySecs :=
  ⟨by decide, by decide, by decide, by decide,
    run_daily_with_timezone_local_weekday 100000 13541 86340 [5]
      (by decide) (by decide) (by decide) (by decide)⟩

/-- Claim C8: for a daily job with all seven weekdays eligible, the job fires
at the first occurrence of the given time-of-day at or after scheduling time
(`dailyNext` is at or after `now`, carries the requested offset-local
time-of-day, and no earlier instant at or after `now` does), and after it
fires its `next_t` is recomputed as exactly 86400 seconds later. -/
theorem run_daily_all_days (now tod offset last : Int) (days : List Int)
    (h0 : 0 ≤ tod) (h1 : tod < daySecs)
    (hall : ∀ w : Int, 0 ≤ w → w < 7 → w ∈ days) :
    dailyReschedule last offset days = last + daySecs ∧
    dailyNext now tod offset days = nextTodOccurrence now tod offset ∧
    now ≤ dailyNext now tod offset days ∧
    (dailyNext now tod offset days + offset) % daySecs = tod ∧
    ∀ u : Int, now ≤ u → u < dailyNext now tod offset days →
      (u + offset) % daySecs ≠ tod := by
  have hmem : ∀ t : Int, weekdayOf t ∈ days := by
    intro t
    unfold weekdayOf
    exact hall _ (by omega) (by omega)
  have he : dailyNext now tod offset days = nextTodOccurrence now tod offset := by
    unfold dailyNext
    exact dailySearch_hit offset days 6 _ (hmem _)
  have hr : dailyReschedule last offset days = last + daySecs := by
    unfold dailyReschedule
    exact dailySearch_hit offset days 6 _ (hmem _)
  refine ⟨hr, he, ?_, ?_, ?_⟩
  · exact he ▸ (nextTodOccurrence_bounds now tod offset h0 h1).1
  · exact he ▸ nextTodOccurrence_tod now tod offset h0 h1
  · intro u hu1 hu2
    exact nextTodOccurrence_least now tod offset u h0 h1 hu1 (he ▸ hu2)

/-- Witness for C8 at `now = 1000`, `tod = 500`, `offset = 0`, `last = 777`,
all seven weekdays eligible. -/
theorem run_daily_all_days_w :
    (0 : Int) ≤ 500 ∧ (500 : Int) < daySecs ∧
      dailyReschedule 777 0 [0, 1, 2, 3, 4, 5, 6] = 777 + daySecs ∧
      dailyNext 1000 500 0 [0, 1, 2, 3, 4, 5, 6] = nextTodOccurrence 1000 500 0 ∧
      (1000 : Int) ≤ dailyNext 1000 500 0 [0, 1, 2, 3, 4, 5, 6] ∧
      (dailyNext 1000 500 0 [0, 1, 2, 3, 4, 5, 6] + 0) % daySecs = 500 := by
  have h := run_daily_all_days 1000 500 0 777 [0, 1, 2, 3, 4, 5, 6]
    (by decide) (by decide)
    (by intro w hw1 hw2; interval_cases w <;> decide)
  exact ⟨by decide, by decide, h.1, h.2.1, h.2.2.1, h.2.2.2.1⟩

/-! ## Claims about the Job mutation guards -/

/-- Claim C1, counterexample: on the job constructed by
`Job(self.job_run_once, repeat=False)` (so `repeat = false` and `interval =
None`), assigning `interval = 15` does not fail with a validation error: it
succeeds and updates the job's state, exactly as pinned by
`tests/test_jobqueue.py::test_warnings` (`j.interval = 15` outside any
`pytest.raises`, followed by `assert j.interval_seconds == 15`). -/
theorem interval_set_while_not_repeating_succeeds_cex :
    (Job.mk false none true false).setInterval (IntervalInput.num 15) =
      Except.ok (Job.mk false (some (IntervalValue.num 15)) true false) ∧
    ¬ ∃ e, (Job.mk false none true false).setInterval (IntervalInput.num 15) =
      Except.error e :=
  ⟨rfl, fun ⟨_, h⟩ => Except.noConfusion h⟩

/-- Claim C1, amended: for every existing Job with `repeat = false`, assigning
a supported duration value (a number or a `timedelta`) to `interval` succeeds
and updates it, and assigning `None` succeeds as well (the prohibition on
unsetting `interval` applies only while `repeat = true`); only assigning a
value of an unsupported type fails with a validation error, leaving the job's
state unchanged. -/
theorem interval_assignment_with_repeat_false (j : Job) (n s : Int) (str : String)
    (h : j.repeats = false) :
    j.setInterval (IntervalInput.num n) =
      Except.ok { j with interval := some (.num n) } ∧
    j.setInterval (IntervalInput.timedelta s) =
      Except.ok { j with interval := some (.timedelta s) } ∧
    j.setInterval IntervalInput.noneV = Except.ok { j with interval := none } ∧
    j.setInterval (IntervalInput.badType str) =
      Except.error "interval must be of type Number or timedelta" := by
  refine ⟨rfl, rfl, ?_, rfl⟩
  simp [Job.setInterval, h]

/-- Witness for the amended C1 at the job `Job(..., repeat=False)`. -/
theorem interval_assignment_with_repeat_false_w :
    (Job.mk false none true false).repeats = false ∧
    (Job.mk false none true false).setInterval (IntervalInput.num 15) =
      Except.ok { Job.mk false none true false with interval := some (.num 15) } ∧
    (Job.mk false none true false).setInterval (IntervalInput.timedelta 15) =
      Except.ok { Job.mk false none true false with interval := some (.timedelta 15) } ∧
    (Job.mk false none true false).setInterval IntervalInput.noneV =
      Except.ok { Job.mk false none true false with interval := none } ∧
    (Job.mk false none true false).setInterval (IntervalInput.badType "every 3 minutes") =
      Except.error "interval must be of type Number or timedelta" :=
  ⟨rfl, interval_assignment_with_repeat_false (Job.mk false none true false)
    15 15 "every 3 minutes" rfl⟩

/-- Claim C9: assigning `interval = None` while `repeat = true` is rejected
with a `ValueError`-style validation error (the job is left unchanged), and
subsequently assigning `interval = 15` succeeds, after which the derived
read-only attribute `interval_seconds` equals 15. -/
theorem interval_none_while_repeating_rejected (j : Job) (h : j.repeats = true) :
    j.setInterval IntervalInput.noneV =
      Except.error "interval can not be None when repeat is True" ∧
    j.setInterval (IntervalInput.num 15) =
      Except.ok { j with interval := some (.num 15) } ∧
    Job.interval_seconds { j with interval := some (.num 15) } = some 15 := by
  refine ⟨?_, rfl, rfl⟩
  simp [Job.setInterval, h]

/-- Witness for C9 at a repeating job with interval 3. -/
theorem interval_none_while_repeating_rejected_w :
    (Job.mk true (some (IntervalValue.num 3)) true false).repeats = true ∧
    (Job.mk true (some (IntervalValue.num 3)) true false).setInterval IntervalInput.noneV =
      Except.error "interval can not be None when repeat is True" ∧
    (Job.mk true (some (IntervalValue.num 3)) true false).setInterval (IntervalInput.num 15) =
      Except.ok { Job.mk true (some (IntervalValue.num 3)) true false with
        interval := some (.num 15) } ∧
    Job.interval_seconds { Job.mk true (some (IntervalValue.num 3)) true false with
      interval := some (.num 15) } = some 15 :=
  ⟨rfl, interval_none_while_repeating_rejected
    (Job.mk true (some (IntervalValue.num 3)) true false) rfl⟩

/-! ## Claim about the decorator -/

/-- Claim C10: for every dispatcher and callback, the decorator returned by
`cmdhandler(dispatcher, command, **handler_kwargs)` returns the original
callback object itself, unchanged and unwrapped, while registering on the
dispatcher exactly one new `CommandHandler` whose command name is `command`
when it is provided and truthy and the callback's `__name__` otherwise; the
registered wrapper forwards its arguments to the callback, using the
`(update, context)` convention exactly when `dispatcher.use_context` is true
and the `(bot, update)` convention otherwise. -/
theorem cmdhandler_registers_and_returns_callback {V : Type} (d : Dispatcher V)
    (command : Option String) (kwargs : List (String × String)) (cb : PyCallback V) :
    (cmdhandler d command kwargs cb).2 = cb ∧
    ∃ h : CommandHandler V,
      (cmdhandler d command kwargs cb).1 = { d with handlers := d.handlers ++ [h] } ∧
      h.command = (match command with
        | none => cb.name
        | some s => if s = "" then cb.name else s) ∧
      h.kwargs = kwargs ∧
      h.callback.convention =
        (if d.use_context then Convention.context else Convention.bot) ∧
      ∀ a b rest, h.callback.forward a b rest = cb.fn a b rest := by
  obtain ⟨u, hs⟩ := d
  cases u <;> exact ⟨rfl, _, rfl, rfl, rfl, rfl, fun a b rest => rfl⟩

/-! ## Claims about the scheduler loop -/

/-- Claim C4: for a pair of queued one-shot jobs — job 0 inserted first with
delay `d1`, job 1 inserted second with delay `d2 ≤ d1` — the job with the
earlier `next_t` has its callback invoked before the job with the later
`next_t`, regardless of insertion order; for jobs with equal `next_t`, the job
inserted first is invoked before the job inserted second. -/
theorem earlier_deadline_runs_first (d1 d2 : Int) (h0 : 0 ≤ d2) (h12 : d2 ≤ d1) :
    (runUntil 3 (run_once (run_once initState d1 false false) d2 false false) d1).trace =
      if d2 < d1 then [(1, d2), (0, d1)] else [(0, d1), (1, d1)] := by
  rcases lt_or_eq_of_le h12 with h | h
  · simp [run_once, initState, insertEntry, runUntil, dispatch, reschedulePolicy,
      h, le_of_lt h, show ¬ d1 ≤ d2 from not_le.mpr h]
  · subst h
    simp [run_once, initState, insertEntry, runUntil, dispatch, reschedulePolicy]

/-- Witness for C4 at `d1 = 5`, `d2 = 3`. -/
theorem earlier_deadline_runs_first_w :
    (0 : Int) ≤ 3 ∧ (3 : Int) ≤ 5 ∧
      (runUntil 3 (run_once (run_once initState 5 false false) 3 false false) 5).trace =
        if (3 : Int) < 5 then [(1, 3), (0, 5)] else [(0, 5), (1, 5)] :=
  ⟨by decide, by decide, earlier_deadline_runs_first 5 3 (by decide) (by decide)⟩

theorem runUntil_succ (fuel : Nat) (st : SchedState) (target : Int) :
    runUntil (fuel + 1) st target =
      match st.queue with
      | [] => { st with now := max st.now target }
      | e :: rest =>
          if e.next_t ≤ target then
            runUntil fuel
              (dispatch { st with queue := rest, now := max st.now e.next_t } e.next_t e.job)
              target
          else { st with now := max st.now target } := rfl

theorem runUntil_empty_trace (fuel : Nat) (st : SchedState) (target : Int)
    (h : st.queue = []) :
    (runUntil fuel st target).trace = st.trace ∧ (runUntil fuel st target).queue = [] := by
  cases fuel with
  | zero => exact ⟨rfl, h⟩
  | succ n =>
      rw [runUntil_succ, h]
      exact ⟨rfl, rfl⟩

/-- Claim C5: if `schedule_removal()` is called from within a repeating job's
own callback, that job's callback executes exactly one more time in total (the
in-progress execution) and zero times thereafter: the job is dropped from the
queue, never re-inserted, and any further running of the loop adds no further
invocation. -/
theorem schedule_removal_from_within_runs_once (i target target2 : Int) (fuel fuel2 : Nat)
    (hi : 0 < i) (ht : i ≤ target) :
    (runUntil (fuel + 2) (run_repeating initState i false true) target).trace = [(0, i)] ∧
    (runUntil (fuel + 2) (run_repeating initState i false true) target).queue = [] ∧
    (runUntil fuel2 (runUntil (fuel + 2) (run_repeating initState i false true) target)
        target2).trace = [(0, i)] := by
  have step : runUntil (fuel + 2) (run_repeating initState i false true) target =
      runUntil (fuel + 1) ⟨[], max 0 i, [(0, i)], [], 1⟩ target := by
    rw [show fuel + 2 = (fuel + 1) + 1 from rfl, runUntil_succ]
    simp [run_repeating, initState, insertEntry, dispatch, reschedulePolicy, ht]
  have e1 := runUntil_empty_trace (fuel + 1) ⟨[], max 0 i, [(0, i)], [], 1⟩ target rfl
  rw [step]
  refine ⟨e1.1, e1.2, ?_⟩
  have e2 := runUntil_empty_trace fuel2
    (runUntil (fuel + 1) ⟨[], max 0 i, [(0, i)], [], 1⟩ target) target2 e1.2
  rw [e2.1, e1.1]

/-- Witness for C5 at `i = 2`, run until 5 and then further until 9. -/
theorem schedule_removal_from_within_runs_once_w :
    (0 : Int) < 2 ∧ (2 : Int) ≤ 5 ∧
      (runUntil (0 + 2) (run_repeating initState 2 false true) 5).trace = [(0, 2)] ∧
      (runUntil (0 + 2) (run_repeating initState 2 false true) 5).queue = [] ∧
      (runUntil 3 (runUntil (0 + 2) (run_repeating initState 2 false true) 5) 9).trace =
        [(0, 2)] :=
  ⟨by decide, by decide,
    schedule_removal_from_within_runs_once 2 5 9 0 3 (by decide) (by decide)⟩

/-- Claim C6: with job 0 repeating at interval `a` and its callback raising an
exception, and job 1 repeating at a later but nearby interval `b`, the
scheduler loop does not abort: job 1 still fires on schedule at `b`, the error
is reported to the error channel, and the erroring job 0 is still rescheduled
according to its policy (at `a + a`, as is job 1 at `b + b`). -/
theorem raising_callback_is_isolated (a b target : Int)
    (ha : 0 < a) (hab : a < b) (hbt : b ≤ target) (ht2 : target < a + a) :
    (runUntil 4 (run_repeating (run_repeating initState a true false) b false false)
        target).trace = [(0, a), (1, b)] ∧
    (runUntil 4 (run_repeating (run_repeating initState a true false) b false false)
        target).errors = [(0, a)] ∧
    (runUntil 4 (run_repeating (run_repeating initState a true false) b false false)
        target).queue =
      [⟨a + a, ⟨0, .repeating a, true, false, true, false⟩⟩,
       ⟨b + b, ⟨1, .repeating b, false, false, true, false⟩⟩] := by
  refine ⟨?_, ?_, ?_⟩ <;>
    simp [run_repeating, initState, insertEntry, runUntil, dispatch, reschedulePolicy,
      le_of_lt hab, hbt, show a ≤ target from by omega, show b ≤ a + a from by omega,
      show a + a ≤ b + b from by omega, show ¬ (a + a ≤ target) from by omega]

/-- Witness for C6 at `a = 2`, `b = 3`, run until 3. -/
theorem raising_callback_is_isolated_w :
    (0 : Int) < 2 ∧ (2 : Int) < 3 ∧ (3 : Int) ≤ 3 ∧ (3 : Int) < 2 + 2 ∧
      (runUntil 4 (run_repeating (run_repeating initState 2 true false) 3 false false)
          3).trace = [(0, 2), (1, 3)] ∧
      (runUntil 4 (run_repeating (run_repeating initState 2 true false) 3 false false)
          3).errors = [(0, 2)] ∧
      (runUntil 4 (run_repeating (run_repeating initState 2 true false) 3 false false)
          3).queue =
        [⟨2 + 2, ⟨0, .repeating 2, true, false, true, false⟩⟩,
         ⟨3 + 3, ⟨1, .repeating 3, false, false, true, false⟩⟩] :=
  ⟨by decide, by decide, by decide, by decide,
    raising_callback_is_isolated 2 3 3 (by decide) (by decide) (by decide) (by decide)⟩

/-- Claim C7: setting `enabled = false` suppresses execution but not the
underlying timer tick.  In the generalised `test_disabled` scenario (one-shot
job 0 due at `D1`, repeating job 1 with interval `I`, both disabled right
after scheduling): running past the repeating job's first window produces zero
invocations; after re-enabling the one-shot job before its deadline, it fires
exactly once at its original deadline `D1` (no time extension) while the
still-disabled repeating job stays silent; after re-enabling the repeating
job, it resumes on its original cadence, firing exactly once at `2 * I` (no
catch-up burst) and continuing at `3 * I`. -/
theorem disabled_suppresses_execution_not_tick (I D1 t0 T T2 : Int)
    (h1 : 0 < I) (h2 : I ≤ t0) (h3 : t0 < D1) (h4 : D1 < 2 * I)
    (h5 : D1 ≤ T) (h6 : T < 2 * I) (h7 : 2 * I ≤ T2) (h8 : T2 < 3 * I) :
    (disabledScenarioPhase1 I D1 t0).trace = [] ∧
    (disabledScenarioPhase2 I D1 t0 T).trace = [(0, D1)] ∧
    (disabledScenarioPhase3 I D1 t0 T T2).trace = [(0, D1), (1, 2 * I)] ∧
    (disabledScenarioPhase3 I D1 t0 T T2).queue =
      [⟨3 * I, ⟨1, .repeating I, false, false, true, false⟩⟩] := by
  refine ⟨?_, ?_, ?_, ?_⟩ <;>
    simp [disabledScenarioPhase1, disabledScenarioPhase2, disabledScenarioPhase3,
      run_once, run_repeating, initState, insertEntry, runUntil, dispatch,
      reschedulePolicy, setEnabled, h2, h5,
      show I + I = 2 * I from by ring, show 2 * I + I = 3 * I from by ring,
      show ¬ (D1 ≤ I) from by omega, show D1 ≤ 2 * I from by omega,
      show ¬ (D1 ≤ t0) from by omega, show ¬ (2 * I ≤ t0) from by omega,
      show ¬ (2 * I ≤ T) from by omega, show 2 * I ≤ T2 from h7,
      show ¬ (3 * I ≤ T2) from by omega]

/-- Witness for C7 at `I = 3`, `D1 = 5`, `t0 = 4`, `T = 5`, `T2 = 7`. -/
theorem disabled_suppresses_execution_not_tick_w :
    (0 : Int) < 3 ∧ (3 : Int) ≤ 4 ∧ (4 : Int) < 5 ∧ (5 : Int) < 2 * 3 ∧
      (5 : Int) ≤ 5 ∧ (5 : Int) < 2 * 3 ∧ (2 * 3 : Int) ≤ 7 ∧ (7 : Int) < 3 * 3 ∧
      (disabledScenarioPhase1 3 5 4).trace = [] ∧
      (disabledScenarioPhase2 3 5 4 5).trace = [(0, 5)] ∧
      (disabledScenarioPhase3 3 5 4 5 7).trace = [(0, 5), (1, 2 * 3)] ∧
      (disabledScenarioPhase3 3 5 4 5 7).queue =
        [⟨3 * 3, ⟨1, .repeating 3, false, false, true, false⟩⟩] :=
  ⟨by decide, by decide, by decide, by decide, by decide, by decide, by decide, by decide,
    disabled_suppresses_execution_not_tick 3 5 4 5 7 (by decide) (by decide) (by decide)
      (by decide) (by decide) (by decide) (by decide) (by decide)⟩

end PTB
